import Mathlib

/-!
Verification of the asset-management chaincode
(src/chaincode/asset-management/chaincode.go) of the
hyperledger-fabric repository.

The chaincode runs against a Fabric ledger, which we shallowly embed:

* the world state is a key-sorted association list from keys (strings)
  to stored byte values, matching the sorted key-value store Fabric
  exposes through GetState / PutState / DelState / GetStateByRange;
* the per-key change log is an append-only list of key modifications
  (commit order, oldest first), matching GetHistoryForKey as the spec
  describes the change-log iterator;
* byte values are either the JSON encoding of an Account
  (json.Marshal on Account is total and injective, and json.Unmarshal
  inverts it) or bytes that do not decode to an Account.

Errors returned by the contract are named after the spec taxonomy;
each constructor is the embedding of one concrete source error:
`alreadyExists` for the error with message "asset exists",
`notFound` for the error with message "not found",
`invalidAmount` for the error propagated from strconv.ParseInt,
`decodeError` for the error propagated from json.Unmarshal.
A Fabric transaction function that returns an error commits no writes;
an operation therefore returns `Except CCErr Ledger`, and the state
after a failed call is the input state (`stateAfter`).
-/

/-- The Account record of the chaincode (struct Account). -/
structure Account where
  DEALERID : String
  MSISDN : String
  MPIN : String
  BALANCE : Int
  STATUS : String
  TRANSAMOUNT : Int
  TRANSTYPE : String
  REMARKS : String
deriving DecidableEq, Repr

/-- Byte strings stored in the ledger: either the JSON encoding of an
Account (the image of json.Marshal, which is total and injective on
Account) or bytes that json.Unmarshal fails to decode into an Account. -/
inductive Bytes where
  | acct (a : Account)
  | garbage (n : Nat)
deriving DecidableEq, Repr

/-- json.Unmarshal of a byte string into an Account. -/
def unmarshalAccount : Bytes → Option Account
  | .acct a => some a
  | .garbage _ => none

/-- Value of a run of ASCII decimal digits, most significant first. -/
def digitsToNat (ds : List Char) : Nat :=
  ds.foldl (fun acc d => 10 * acc + (d.toNat - 48)) 0

/-- The digit phase of Go strconv.ParseInt(s, 10, 64) after the sign
has been stripped: a non-empty run of ASCII decimal digits whose value,
with the sign applied, fits in a signed 64-bit integer; anything else
(empty digit run, other characters, out-of-range magnitude) errors. -/
def parseInt64Core (neg : Bool) (digits : List Char) : Option Int :=
  if digits = [] then none
  else if digits.all (fun d => d.isDigit) then
    let n : Nat := digitsToNat digits
    if neg then
      if n ≤ 2 ^ 63 then some (-(n : Int)) else none
    else
      if n ≤ 2 ^ 63 - 1 then some (n : Int) else none
  else none

/-- The sign phase of Go strconv.ParseInt(s, 10, 64): an optional
single leading plus or minus, the rest handed to the digit phase. -/
def parseInt64List : List Char → Option Int
  | [] => none
  | c :: rest =>
    if c = '-' then parseInt64Core true rest
    else if c = '+' then parseInt64Core false rest
    else parseInt64Core false (c :: rest)

/-- Go strconv.ParseInt(s, 10, 64) on the characters of the string. -/
def parseInt64 (s : String) : Option Int :=
  parseInt64List s.data

/-- One record of the ledger change log for some key, as yielded by the
GetHistoryForKey iterator: transaction id, key, stored value (none when
the underlying record carries nil bytes), deletion flag, and the commit
timestamp truncated to seconds (rec.Timestamp.GetSeconds()). -/
structure KeyMod where
  txId : String
  key : String
  value : Option Bytes
  isDelete : Bool
  tsSeconds : Int
deriving DecidableEq, Repr

/-- The Fabric ledger as the chaincode observes it: the current world
state (a key-value store iterated in lexicographic key order, embedded
as a key-sorted association list) and the append-only change log in
commit order, oldest first. -/
structure Ledger where
  world : List (String × Bytes)
  log : List KeyMod
deriving DecidableEq, Repr

/-- The empty ledger: no live records, no history. -/
def emptyLedger : Ledger := ⟨[], []⟩

/-- Context of a committing transaction: its transaction id and its
commit timestamp in seconds, recorded in the change log. -/
structure TxCtx where
  txId : String
  tsSeconds : Int
deriving DecidableEq, Repr

/-- Insertion into the sorted world state, replacing the value when the
key is already present. -/
def insertKV : List (String × Bytes) → String → Bytes → List (String × Bytes)
  | [], k, v => [(k, v)]
  | (k1, v1) :: rest, k, v =>
    if k < k1 then (k, v) :: (k1, v1) :: rest
    else if k = k1 then (k, v) :: rest
    else (k1, v1) :: insertKV rest k v

/-- Removal of a key from the world state. -/
def eraseKV : List (String × Bytes) → String → List (String × Bytes)
  | [], _ => []
  | (k1, v1) :: rest, k =>
    if k1 = k then eraseKV rest k else (k1, v1) :: eraseKV rest k

/-- Lookup in the world state. -/
def lookupKV : List (String × Bytes) → String → Option Bytes
  | [], _ => none
  | (k1, v1) :: rest, k => if k1 = k then some v1 else lookupKV rest k

/-- stub.GetState: the current value stored under a key, none when the
key is absent (nil bytes in Go). -/
def getState (l : Ledger) (k : String) : Option Bytes :=
  lookupKV l.world k

/-- stub.PutState: store a value under a key and append the write to
the change log. -/
def putState (ctx : TxCtx) (l : Ledger) (k : String) (v : Bytes) : Ledger :=
  ⟨insertKV l.world k v, l.log ++ [⟨ctx.txId, k, some v, false, ctx.tsSeconds⟩]⟩

/-- stub.DelState: remove a key from the world state and append a
deletion record to the change log. -/
def delState (ctx : TxCtx) (l : Ledger) (k : String) : Ledger :=
  ⟨eraseKV l.world k, l.log ++ [⟨ctx.txId, k, none, true, ctx.tsSeconds⟩]⟩

/-- The contract error taxonomy (see the module comment for the mapping
to the concrete source errors). -/
inductive CCErr where
  | alreadyExists
  | notFound
  | invalidAmount
  | decodeError
deriving DecidableEq, Repr

/-- SmartContract.exists: GetState and compare against nil. -/
def existsKey (l : Ledger) (k : String) : Bool :=
  (getState l k).isSome

/-- SmartContract.CreateAsset. -/
def createAsset (ctx : TxCtx) (l : Ledger)
    (dealerID msisdn mpin balance status transAmount transType remarks : String) :
    Except CCErr Ledger :=
  if existsKey l msisdn then .error .alreadyExists
  else
    match parseInt64 balance with
    | none => .error .invalidAmount
    | some bal =>
      match parseInt64 transAmount with
      | none => .error .invalidAmount
      | some tamt =>
        let acc : Account :=
          ⟨dealerID, msisdn, mpin, bal, status, tamt, transType, remarks⟩
        .ok (putState ctx l msisdn (.acct acc))

/-- SmartContract.ReadAsset. -/
def readAsset (l : Ledger) (msisdn : String) : Except CCErr Account :=
  match getState l msisdn with
  | none => .error .notFound
  | some b =>
    match unmarshalAccount b with
    | none => .error .decodeError
    | some a => .ok a

/-- SmartContract.UpdateAsset. -/
def updateAsset (ctx : TxCtx) (l : Ledger)
    (dealerID msisdn mpin balance status transAmount transType remarks : String) :
    Except CCErr Ledger :=
  if ¬ existsKey l msisdn then .error .notFound
  else
    match parseInt64 balance with
    | none => .error .invalidAmount
    | some bal =>
      match parseInt64 transAmount with
      | none => .error .invalidAmount
      | some tamt =>
        let acc : Account :=
          ⟨dealerID, msisdn, mpin, bal, status, tamt, transType, remarks⟩
        .ok (putState ctx l msisdn (.acct acc))

/-- SmartContract.DeleteAsset. -/
def deleteAsset (ctx : TxCtx) (l : Ledger) (msisdn : String) :
    Except CCErr Ledger :=
  if ¬ existsKey l msisdn then .error .notFound
  else .ok (delState ctx l msisdn)

/-- The loop body of GetAllAssets: decode each stored value in
iteration order, stopping at the first decode failure. -/
def decodeAll : List (String × Bytes) → Except CCErr (List Account)
  | [] => .ok []
  | kv :: rest =>
    match unmarshalAccount kv.2 with
    | none => .error .decodeError
    | some a =>
      match decodeAll rest with
      | .error e => .error e
      | .ok as => .ok (a :: as)

/-- SmartContract.GetAllAssets: iterate the whole world state by key
range (GetStateByRange with unbounded ends yields keys in lexicographic
order) and decode each stored value. -/
def getAllAssets (l : Ledger) : Except CCErr (List Account) :=
  decodeAll l.world

/-- One entry of the result of GetAssetHistory (struct History). -/
structure History where
  txId : String
  value : Option Account
  isDelete : Bool
  timestamp : Int
deriving DecidableEq, Repr

/-- The body of the GetAssetHistory loop for one change-log record:
decode the value into a snapshot only when the record carries non-nil
bytes and is not a deletion. -/
def histEntry (rec : KeyMod) : Except CCErr History :=
  match rec.value, rec.isDelete with
  | some b, false =>
    match unmarshalAccount b with
    | none => Except.error CCErr.decodeError
    | some a => Except.ok ⟨rec.txId, some a, rec.isDelete, rec.tsSeconds⟩
  | _, _ => Except.ok ⟨rec.txId, none, rec.isDelete, rec.tsSeconds⟩

/-- The GetAssetHistory loop over the records of the key, stopping at
the first decode failure. -/
def histList : List KeyMod → Except CCErr (List History)
  | [] => .ok []
  | rec :: rest =>
    match histEntry rec with
    | .error e => .error e
    | .ok h =>
      match histList rest with
      | .error e => .error e
      | .ok hs => .ok (h :: hs)

/-- SmartContract.GetAssetHistory: replay the change log of the key in
commit order (GetHistoryForKey yields the records of the key, oldest
first). -/
def getAssetHistory (l : Ledger) (msisdn : String) :
    Except CCErr (List History) :=
  histList (l.log.filter (fun rec => rec.key = msisdn))

/-- The ledger state visible after a call: Fabric commits the writes of
a transaction only when the transaction function returns without error,
so a failed call leaves the input state. -/
def stateAfter (l : Ledger) (r : Except CCErr Ledger) : Ledger :=
  match r with
  | .ok l1 => l1
  | .error _ => l

/-- Ledger states reachable from the empty ledger through successful
contract operations alone. -/
inductive Reachable : Ledger → Prop where
  | empty : Reachable emptyLedger
  | create (ctx : TxCtx) (l l1 : Ledger)
      (dealerID msisdn mpin balance status transAmount transType remarks : String) :
      Reachable l →
      createAsset ctx l dealerID msisdn mpin balance status transAmount transType remarks
        = .ok l1 →
      Reachable l1
  | update (ctx : TxCtx) (l l1 : Ledger)
      (dealerID msisdn mpin balance status transAmount transType remarks : String) :
      Reachable l →
      updateAsset ctx l dealerID msisdn mpin balance status transAmount transType remarks
        = .ok l1 →
      Reachable l1
  | delete (ctx : TxCtx) (l l1 : Ledger) (msisdn : String) :
      Reachable l → deleteAsset ctx l msisdn = .ok l1 → Reachable l1

/-- Every live record is stored under its own MSISDN. -/
def KeyMatch (l : Ledger) : Prop :=
  ∀ k b, getState l k = some b → ∃ a, b = Bytes.acct a ∧ a.MSISDN = k

/-- The world state is strictly sorted by key (lexicographic order),
which is the iteration order of GetStateByRange. -/
def SortedWorld (w : List (String × Bytes)) : Prop :=
  w.Pairwise (fun a b => a.1 < b.1)

/-- A concrete account used to instantiate the theorems. -/
def sampleAccount : Account :=
  ⟨"D1", "9990001111", "1234", 1000, "ACTIVE", 0, "NA", "init"⟩

/-- The ledger obtained by creating sampleAccount on the empty ledger
in a transaction with id "t1" committed at second 3. -/
def sampleLedger : Ledger :=
  ⟨[("9990001111", .acct sampleAccount)],
   [⟨"t1", "9990001111", some (.acct sampleAccount), false, 3⟩]⟩

example : parseInt64 "1000" = some 1000 := by decide
example : parseInt64 "abc" = none := by decide
example : parseInt64 "-5" = some (-5) := by decide
example : parseInt64 "" = none := by decide
example : parseInt64 "+7" = some 7 := by decide
example : parseInt64 "-" = none := by decide
example : parseInt64 "9223372036854775807" = some 9223372036854775807 := by decide
example : parseInt64 "9223372036854775808" = none := by decide
example : parseInt64 "-9223372036854775808" = some (-9223372036854775808) := by decide
example : parseInt64 "-9223372036854775809" = none := by decide

example :
    createAsset ⟨"t1", 3⟩ emptyLedger "D1" "9990001111" "1234" "1000" "ACTIVE" "0" "NA" "init"
      = .ok ⟨[("9990001111", .acct ⟨"D1", "9990001111", "1234", 1000, "ACTIVE", 0, "NA", "init"⟩)],
             [⟨"t1", "9990001111", some (.acct ⟨"D1", "9990001111", "1234", 1000, "ACTIVE", 0, "NA", "init"⟩), false, 3⟩]⟩ := by
  rfl

theorem lookupKV_insertKV_self : ∀ (w : List (String × Bytes)) (k : String) (v : Bytes),
    lookupKV (insertKV w k v) k = some v
  | [], k, v => by simp [insertKV, lookupKV]
  | (k1, v1) :: rest, k, v => by
    by_cases h1 : k < k1
    · simp [insertKV, h1, lookupKV]
    · by_cases h2 : k = k1
      · simp [insertKV, h1, h2, lookupKV]
      · simp [insertKV, h1, h2, lookupKV, Ne.symm h2,
          lookupKV_insertKV_self rest k v]

theorem lookupKV_insertKV_ne : ∀ (w : List (String × Bytes)) (k : String) (v : Bytes)
    (k2 : String), k2 ≠ k → lookupKV (insertKV w k v) k2 = lookupKV w k2
  | [], k, v, k2, h => by simp [insertKV, lookupKV, Ne.symm h]
  | (k1, v1) :: rest, k, v, k2, h => by
    by_cases h1 : k < k1
    · simp [insertKV, h1, lookupKV, Ne.symm h]
    · by_cases h2 : k = k1
      · subst h2
        simp [insertKV, h1, lookupKV, Ne.symm h]
      · by_cases h3 : k1 = k2
        · simp only [insertKV, if_neg h1, if_neg h2, lookupKV, if_pos h3]
        · simp only [insertKV, if_neg h1, if_neg h2, lookupKV, if_neg h3,
            lookupKV_insertKV_ne rest k v k2 h]

theorem lookupKV_eraseKV_self : ∀ (w : List (String × Bytes)) (k : String),
    lookupKV (eraseKV w k) k = none
  | [], k => by simp [eraseKV, lookupKV]
  | (k1, v1) :: rest, k => by
    by_cases h1 : k1 = k
    · simp [eraseKV, h1, lookupKV_eraseKV_self rest k]
    · simp [eraseKV, h1, lookupKV, lookupKV_eraseKV_self rest k]

theorem lookupKV_eraseKV_ne : ∀ (w : List (String × Bytes)) (k k2 : String),
    k2 ≠ k → lookupKV (eraseKV w k) k2 = lookupKV w k2
  | [], k, k2, h => by simp [eraseKV]
  | (k1, v1) :: rest, k, k2, h => by
    by_cases h1 : k1 = k
    · subst h1
      simp [eraseKV, lookupKV, Ne.symm h, lookupKV_eraseKV_ne rest k1 k2 h]
    · by_cases h3 : k1 = k2
      · simp only [eraseKV, if_neg h1, lookupKV, if_pos h3]
      · simp only [eraseKV, if_neg h1, lookupKV, if_neg h3,
          lookupKV_eraseKV_ne rest k k2 h]

theorem getState_putState_self (ctx : TxCtx) (l : Ledger) (k : String) (v : Bytes) :
    getState (putState ctx l k v) k = some v :=
  lookupKV_insertKV_self l.world k v

theorem getState_putState_ne (ctx : TxCtx) (l : Ledger) (k : String) (v : Bytes)
    (k2 : String) (h : k2 ≠ k) : getState (putState ctx l k v) k2 = getState l k2 :=
  lookupKV_insertKV_ne l.world k v k2 h

theorem getState_delState_self (ctx : TxCtx) (l : Ledger) (k : String) :
    getState (delState ctx l k) k = none :=
  lookupKV_eraseKV_self l.world k

theorem getState_delState_ne (ctx : TxCtx) (l : Ledger) (k k2 : String)
    (h : k2 ≠ k) : getState (delState ctx l k) k2 = getState l k2 :=
  lookupKV_eraseKV_ne l.world k k2 h

theorem mem_insertKV : ∀ (w : List (String × Bytes)) (k : String) (v : Bytes)
    (x : String × Bytes), x ∈ insertKV w k v → x = (k, v) ∨ x ∈ w
  | [], k, v, x => by simp [insertKV]
  | (k1, v1) :: rest, k, v, x => by
    by_cases h1 : k < k1
    · simp only [insertKV, if_pos h1]
      intro hx
      rcases List.mem_cons.mp hx with hx | hx
      · left; exact hx
      · right; exact hx
    · by_cases h2 : k = k1
      · simp only [insertKV, if_neg h1, if_pos h2]
        intro hx
        rcases List.mem_cons.mp hx with hx | hx
        · left; exact hx
        · right; exact List.mem_cons_of_mem _ hx
      · simp only [insertKV, if_neg h1, if_neg h2]
        intro hx
        rcases List.mem_cons.mp hx with hx | hx
        · right; rw [hx]; exact List.mem_cons_self _ _
        · rcases mem_insertKV rest k v x hx with hr | hr
          · left; exact hr
          · right; exact List.mem_cons_of_mem _ hr

theorem sorted_insertKV : ∀ (w : List (String × Bytes)) (k : String) (v : Bytes),
    SortedWorld w → SortedWorld (insertKV w k v)
  | [], k, v, _ => by simp [insertKV, SortedWorld]
  | (k1, v1) :: rest, k, v, hs => by
    rw [SortedWorld, List.pairwise_cons] at hs
    obtain ⟨hhead, hrest⟩ := hs
    by_cases h1 : k < k1
    · rw [SortedWorld]
      simp only [insertKV, if_pos h1]
      rw [List.pairwise_cons]
      refine ⟨?_, ?_⟩
      · intro x hx
        rcases List.mem_cons.mp hx with hx | hx
        · subst hx; exact h1
        · exact lt_trans h1 (hhead x hx)
      · rw [List.pairwise_cons]
        exact ⟨hhead, hrest⟩
    · by_cases h2 : k = k1
      · rw [SortedWorld]
        simp only [insertKV, if_neg h1, if_pos h2]
        rw [List.pairwise_cons]
        exact ⟨fun x hx => h2 ▸ hhead x hx, hrest⟩
      · have hk1 : k1 < k := by
          rcases lt_trichotomy k k1 with h | h | h
          · exact absurd h h1
          · exact absurd h h2
          · exact h
        rw [SortedWorld]
        simp only [insertKV, if_neg h1, if_neg h2]
        rw [List.pairwise_cons]
        refine ⟨?_, sorted_insertKV rest k v hrest⟩
        intro x hx
        rcases mem_insertKV rest k v x hx with hr | hr
        · subst hr; exact hk1
        · exact hhead x hr

theorem sublist_eraseKV : ∀ (w : List (String × Bytes)) (k : String),
    (eraseKV w k).Sublist w
  | [], k => by simp [eraseKV]
  | (k1, v1) :: rest, k => by
    by_cases h1 : k1 = k
    · simp only [eraseKV, if_pos h1]
      exact (sublist_eraseKV rest k).cons _
    · simp only [eraseKV, if_neg h1]
      exact (sublist_eraseKV rest k).cons₂ _

theorem sorted_eraseKV (w : List (String × Bytes)) (k : String)
    (h : SortedWorld w) : SortedWorld (eraseKV w k) :=
  List.Pairwise.sublist (sublist_eraseKV w k) h

theorem existsKey_false_iff (l : Ledger) (k : String) :
    existsKey l k = false ↔ getState l k = none := by
  unfold existsKey
  cases getState l k <;> simp

theorem existsKey_true_iff (l : Ledger) (k : String) :
    existsKey l k = true ↔ ∃ b, getState l k = some b := by
  unfold existsKey
  cases getState l k <;> simp

theorem createAsset_ok_inv (ctx : TxCtx) (l l1 : Ledger)
    (dealerID msisdn mpin balance status transAmount transType remarks : String)
    (h : createAsset ctx l dealerID msisdn mpin balance status transAmount
      transType remarks = .ok l1) :
    getState l msisdn = none ∧
    ∃ bal tamt, parseInt64 balance = some bal ∧ parseInt64 transAmount = some tamt ∧
      l1 = putState ctx l msisdn
        (.acct ⟨dealerID, msisdn, mpin, bal, status, tamt, transType, remarks⟩) := by
  unfold createAsset at h
  split at h
  · cases h
  · rename_i he
    have hnone : getState l msisdn = none := by
      rw [← existsKey_false_iff]
      exact Bool.not_eq_true _ ▸ (Bool.of_not_eq_true he)
    refine ⟨hnone, ?_⟩
    split at h
    · cases h
    · rename_i bal hb
      split at h
      · cases h
      · rename_i tamt ht
        cases h
        exact ⟨bal, tamt, hb, ht, rfl⟩

theorem updateAsset_ok_inv (ctx : TxCtx) (l l1 : Ledger)
    (dealerID msisdn mpin balance status transAmount transType remarks : String)
    (h : updateAsset ctx l dealerID msisdn mpin balance status transAmount
      transType remarks = .ok l1) :
    existsKey l msisdn = true ∧
    ∃ bal tamt, parseInt64 balance = some bal ∧ parseInt64 transAmount = some tamt ∧
      l1 = putState ctx l msisdn
        (.acct ⟨dealerID, msisdn, mpin, bal, status, tamt, transType, remarks⟩) := by
  unfold updateAsset at h
  split at h
  · cases h
  · rename_i he
    have hex : existsKey l msisdn = true := by
      by_cases hq : existsKey l msisdn = true
      · exact hq
      · exact absurd (by exact fun hc => hq hc) (by simpa using he)
    refine ⟨hex, ?_⟩
    split at h
    · cases h
    · rename_i bal hb
      split at h
      · cases h
      · rename_i tamt ht
        cases h
        exact ⟨bal, tamt, hb, ht, rfl⟩

theorem deleteAsset_ok_inv (ctx : TxCtx) (l l1 : Ledger) (msisdn : String)
    (h : deleteAsset ctx l msisdn = .ok l1) :
    existsKey l msisdn = true ∧ l1 = delState ctx l msisdn := by
  unfold deleteAsset at h
  split at h
  · cases h
  · rename_i he
    have hex : existsKey l msisdn = true := by
      by_cases hq : existsKey l msisdn = true
      · exact hq
      · exact absurd (by exact fun hc => hq hc) (by simpa using he)
    cases h
    exact ⟨hex, rfl⟩

theorem parseInt64Core_range (neg : Bool) (ds : List Char) (v : Int)
    (hv : parseInt64Core neg ds = some v) :
    -(2 ^ 63) ≤ v ∧ v ≤ 2 ^ 63 - 1 := by
  unfold parseInt64Core at hv
  by_cases h1 : ds = []
  · rw [if_pos h1] at hv; cases hv
  · rw [if_neg h1] at hv
    by_cases h2 : ds.all (fun d => d.isDigit) = true
    · rw [if_pos h2] at hv
      have hp : (2 : Nat) ^ 63 = 9223372036854775808 := by norm_num
      have hpz : (2 : Int) ^ 63 = 9223372036854775808 := by norm_num
      cases neg with
      | true =>
        rw [if_pos rfl] at hv
        by_cases h3 : digitsToNat ds ≤ 2 ^ 63
        · rw [if_pos h3] at hv
          injection hv with hv
          rw [hp] at h3
          rw [hpz]
          omega
        · rw [if_neg h3] at hv; cases hv
      | false =>
        rw [if_neg Bool.false_ne_true] at hv
        by_cases h3 : digitsToNat ds ≤ 2 ^ 63 - 1
        · rw [if_pos h3] at hv
          injection hv with hv
          rw [hp] at h3
          rw [hpz]
          omega
        · rw [if_neg h3] at hv; cases hv
    · rw [if_neg h2] at hv; cases hv

theorem parseInt64List_range : ∀ (cs : List Char) (v : Int),
    parseInt64List cs = some v → -(2 ^ 63) ≤ v ∧ v ≤ 2 ^ 63 - 1
  | [], _, hv => by cases hv
  | c :: rest, v, hv => by
    simp only [parseInt64List] at hv
    by_cases h1 : c = '-'
    · rw [if_pos h1] at hv
      exact parseInt64Core_range true rest v hv
    · rw [if_neg h1] at hv
      by_cases h2 : c = '+'
      · rw [if_pos h2] at hv
        exact parseInt64Core_range false rest v hv
      · rw [if_neg h2] at hv
        exact parseInt64Core_range false (c :: rest) v hv

theorem parseInt64_range (s : String) (v : Int)
    (hv : parseInt64 s = some v) : -(2 ^ 63) ≤ v ∧ v ≤ 2 ^ 63 - 1 :=
  parseInt64List_range s.data v hv

/-- C1: for every subscriberID with no record in the ledger state,
CreateAsset whose balance and transaction-amount strings parse as
base-10 64-bit integers succeeds, and a subsequent ReadAsset of that
subscriberID returns a record whose string fields equal the supplied
strings and whose BALANCE and TRANSAMOUNT equal the parsed values. -/
theorem createAsset_readAsset_roundtrip
    (ctx : TxCtx) (l : Ledger)
    (dealerID msisdn mpin balance status transAmount transType remarks : String)
    (bal tamt : Int)
    (h0 : getState l msisdn = none)
    (hb : parseInt64 balance = some bal)
    (ht : parseInt64 transAmount = some tamt) :
    ∃ l1,
      createAsset ctx l dealerID msisdn mpin balance status transAmount transType
        remarks = .ok l1 ∧
      readAsset l1 msisdn =
        .ok ⟨dealerID, msisdn, mpin, bal, status, tamt, transType, remarks⟩ := by
  have he : existsKey l msisdn = false := (existsKey_false_iff l msisdn).mpr h0
  refine ⟨putState ctx l msisdn
    (.acct ⟨dealerID, msisdn, mpin, bal, status, tamt, transType, remarks⟩), ?_, ?_⟩
  · simp [createAsset, he, hb, ht]
  · simp [readAsset, getState_putState_self, unmarshalAccount]

/-- Witness for C1 at the spec's example input: creating the
D1/9990001111 record on the empty ledger and reading it back. -/
theorem createAsset_readAsset_roundtrip_witness :
    ∃ l1,
      createAsset ⟨"t1", 3⟩ emptyLedger "D1" "9990001111" "1234" "1000" "ACTIVE"
        "0" "NA" "init" = .ok l1 ∧
      readAsset l1 "9990001111" =
        .ok ⟨"D1", "9990001111", "1234", 1000, "ACTIVE", 0, "NA", "init"⟩ :=
  createAsset_readAsset_roundtrip ⟨"t1", 3⟩ emptyLedger "D1" "9990001111" "1234"
    "1000" "ACTIVE" "0" "NA" "init" 1000 0 rfl (by decide) (by decide)

/-- C2: CreateAsset on a subscriberID that already has a record always
fails with the AlreadyExists error, and the ledger state after the
failed call, including the record stored for that key, is unchanged. -/
theorem createAsset_existing_alreadyExists
    (ctx : TxCtx) (l : Ledger) (b : Bytes)
    (dealerID msisdn mpin balance status transAmount transType remarks : String)
    (h : getState l msisdn = some b) :
    createAsset ctx l dealerID msisdn mpin balance status transAmount transType
      remarks = .error .alreadyExists ∧
    stateAfter l (createAsset ctx l dealerID msisdn mpin balance status
      transAmount transType remarks) = l ∧
    getState (stateAfter l (createAsset ctx l dealerID msisdn mpin balance status
      transAmount transType remarks)) msisdn = some b := by
  have he : existsKey l msisdn = true := (existsKey_true_iff l msisdn).mpr ⟨b, h⟩
  have h1 : createAsset ctx l dealerID msisdn mpin balance status transAmount
      transType remarks = .error .alreadyExists := by
    simp [createAsset, he]
  exact ⟨h1, by simp [stateAfter, h1], by simp [stateAfter, h1, h]⟩

/-- Witness for C2: re-creating the key of sampleLedger fails with
AlreadyExists and leaves the ledger untouched. -/
theorem createAsset_existing_alreadyExists_witness :
    createAsset ⟨"t2", 4⟩ sampleLedger "D2" "9990001111" "9999" "5" "ACTIVE"
      "1" "CREDIT" "x" = .error .alreadyExists ∧
    stateAfter sampleLedger (createAsset ⟨"t2", 4⟩ sampleLedger "D2" "9990001111"
      "9999" "5" "ACTIVE" "1" "CREDIT" "x") = sampleLedger ∧
    getState (stateAfter sampleLedger (createAsset ⟨"t2", 4⟩ sampleLedger "D2"
      "9990001111" "9999" "5" "ACTIVE" "1" "CREDIT" "x")) "9990001111"
      = some (.acct sampleAccount) :=
  createAsset_existing_alreadyExists ⟨"t2", 4⟩ sampleLedger (.acct sampleAccount)
    "D2" "9990001111" "9999" "5" "ACTIVE" "1" "CREDIT" "x" rfl

/-- C3: UpdateAsset and DeleteAsset on a subscriberID with no record
always fail with the NotFound error and cause no state change. -/
theorem update_delete_missing_notFound
    (ctx1 ctx2 : TxCtx) (l : Ledger)
    (dealerID msisdn mpin balance status transAmount transType remarks : String)
    (h : getState l msisdn = none) :
    updateAsset ctx1 l dealerID msisdn mpin balance status transAmount transType
      remarks = .error .notFound ∧
    deleteAsset ctx2 l msisdn = .error .notFound ∧
    stateAfter l (updateAsset ctx1 l dealerID msisdn mpin balance status
      transAmount transType remarks) = l ∧
    stateAfter l (deleteAsset ctx2 l msisdn) = l := by
  have he : existsKey l msisdn = false := (existsKey_false_iff l msisdn).mpr h
  have h1 : updateAsset ctx1 l dealerID msisdn mpin balance status transAmount
      transType remarks = .error .notFound := by
    simp [updateAsset, he]
  have h2 : deleteAsset ctx2 l msisdn = .error .notFound := by
    simp [deleteAsset, he]
  exact ⟨h1, h2, by simp [stateAfter, h1], by simp [stateAfter, h2]⟩

/-- Witness for C3 on the empty ledger. -/
theorem update_delete_missing_notFound_witness :
    updateAsset ⟨"t1", 3⟩ emptyLedger "D1" "9990001111" "1234" "1000" "ACTIVE"
      "0" "NA" "init" = .error .notFound ∧
    deleteAsset ⟨"t2", 4⟩ emptyLedger "9990001111" = .error .notFound ∧
    stateAfter emptyLedger (updateAsset ⟨"t1", 3⟩ emptyLedger "D1" "9990001111"
      "1234" "1000" "ACTIVE" "0" "NA" "init") = emptyLedger ∧
    stateAfter emptyLedger (deleteAsset ⟨"t2", 4⟩ emptyLedger "9990001111")
      = emptyLedger :=
  update_delete_missing_notFound ⟨"t1", 3⟩ ⟨"t2", 4⟩ emptyLedger "D1"
    "9990001111" "1234" "1000" "ACTIVE" "0" "NA" "init" rfl

/-- C4: with the key absent, CreateAsset fails with the InvalidAmount
error iff balanceStr or transAmountStr does not parse as a base-10
signed 64-bit integer, and likewise UpdateAsset with the key present;
on that failure no key is written; every value a numeric string parses
to lies within the signed 64-bit range, and no further restriction on
sign or magnitude is imposed. -/
theorem invalidAmount_iff_parseInt64_fails
    (ctx : TxCtx) (l : Ledger)
    (dealerID msisdn mpin balance status transAmount transType remarks : String) :
    (getState l msisdn = none →
      (createAsset ctx l dealerID msisdn mpin balance status transAmount
        transType remarks = .error .invalidAmount ↔
        (parseInt64 balance = none ∨ parseInt64 transAmount = none))) ∧
    (∀ b, getState l msisdn = some b →
      (updateAsset ctx l dealerID msisdn mpin balance status transAmount
        transType remarks = .error .invalidAmount ↔
        (parseInt64 balance = none ∨ parseInt64 transAmount = none))) ∧
    (createAsset ctx l dealerID msisdn mpin balance status transAmount transType
        remarks = .error .invalidAmount →
      stateAfter l (createAsset ctx l dealerID msisdn mpin balance status
        transAmount transType remarks) = l) ∧
    (updateAsset ctx l dealerID msisdn mpin balance status transAmount transType
        remarks = .error .invalidAmount →
      stateAfter l (updateAsset ctx l dealerID msisdn mpin balance status
        transAmount transType remarks) = l) ∧
    (∀ v : Int, parseInt64 balance = some v → -(2 ^ 63) ≤ v ∧ v ≤ 2 ^ 63 - 1) := by
  refine ⟨?_, ?_, ?_, ?_, ?_⟩
  · intro h0
    have he : existsKey l msisdn = false := (existsKey_false_iff l msisdn).mpr h0
    constructor
    · intro hc
      cases hb : parseInt64 balance with
      | none => exact Or.inl rfl
      | some bal =>
        cases ht : parseInt64 transAmount with
        | none => exact Or.inr rfl
        | some tamt =>
          exfalso
          simp [createAsset, he, hb, ht] at hc
    · rintro (hb | ht)
      · simp [createAsset, he, hb]
      · cases hb2 : parseInt64 balance with
        | none => simp [createAsset, he, hb2]
        | some bal => simp [createAsset, he, hb2, ht]
  · intro b h0
    have he : existsKey l msisdn = true := (existsKey_true_iff l msisdn).mpr ⟨b, h0⟩
    constructor
    · intro hc
      cases hb : parseInt64 balance with
      | none => exact Or.inl rfl
      | some bal =>
        cases ht : parseInt64 transAmount with
        | none => exact Or.inr rfl
        | some tamt =>
          exfalso
          simp [updateAsset, he, hb, ht] at hc
    · rintro (hb | ht)
      · simp [updateAsset, he, hb]
      · cases hb2 : parseInt64 balance with
        | none => simp [updateAsset, he, hb2]
        | some bal => simp [updateAsset, he, hb2, ht]
  · intro hc
    simp [stateAfter, hc]
  · intro hc
    simp [stateAfter, hc]
  · intro v hv
    exact parseInt64_range balance v hv

/-- Witness for C4: creating with balanceStr "abc" on the empty ledger
fails with InvalidAmount and writes nothing. -/
theorem invalidAmount_iff_parseInt64_fails_witness :
    createAsset ⟨"t1", 3⟩ emptyLedger "D1" "9990001111" "1234" "abc" "ACTIVE"
      "0" "NA" "init" = .error .invalidAmount ∧
    stateAfter emptyLedger (createAsset ⟨"t1", 3⟩ emptyLedger "D1" "9990001111"
      "1234" "abc" "ACTIVE" "0" "NA" "init") = emptyLedger :=
  have h := invalidAmount_iff_parseInt64_fails ⟨"t1", 3⟩ emptyLedger "D1"
    "9990001111" "1234" "abc" "ACTIVE" "0" "NA" "init"
  have hc := (h.1 rfl).mpr (Or.inl (by decide))
  ⟨hc, h.2.2.1 hc⟩

/-- C5: after a successful UpdateAsset, the record stored for the key
is built entirely from the supplied arguments; no field of the
pre-update record survives unless resupplied (full overwrite). -/
theorem updateAsset_full_overwrite
    (ctx : TxCtx) (l : Ledger) (b : Bytes)
    (dealerID msisdn mpin balance status transAmount transType remarks : String)
    (bal tamt : Int)
    (h : getState l msisdn = some b)
    (hb : parseInt64 balance = some bal)
    (ht : parseInt64 transAmount = some tamt) :
    ∃ l1,
      updateAsset ctx l dealerID msisdn mpin balance status transAmount transType
        remarks = .ok l1 ∧
      getState l1 msisdn =
        some (.acct ⟨dealerID, msisdn, mpin, bal, status, tamt, transType, remarks⟩) ∧
      readAsset l1 msisdn =
        .ok ⟨dealerID, msisdn, mpin, bal, status, tamt, transType, remarks⟩ := by
  have he : existsKey l msisdn = true := (existsKey_true_iff l msisdn).mpr ⟨b, h⟩
  refine ⟨putState ctx l msisdn
    (.acct ⟨dealerID, msisdn, mpin, bal, status, tamt, transType, remarks⟩),
    ?_, ?_, ?_⟩
  · simp [updateAsset, he, hb, ht]
  · exact getState_putState_self ctx l msisdn _
  · simp [readAsset, getState_putState_self, unmarshalAccount]

/-- Witness for C5: updating the sampleLedger record replaces every
field with the newly supplied values. -/
theorem updateAsset_full_overwrite_witness :
    ∃ l1,
      updateAsset ⟨"t2", 4⟩ sampleLedger "D9" "9990001111" "0000" "-5" "BLOCKED"
        "7" "DEBIT" "upd" = .ok l1 ∧
      getState l1 "9990001111" =
        some (.acct ⟨"D9", "9990001111", "0000", -5, "BLOCKED", 7, "DEBIT", "upd"⟩) ∧
      readAsset l1 "9990001111" =
        .ok ⟨"D9", "9990001111", "0000", -5, "BLOCKED", 7, "DEBIT", "upd"⟩ :=
  updateAsset_full_overwrite ⟨"t2", 4⟩ sampleLedger (.acct sampleAccount) "D9"
    "9990001111" "0000" "-5" "BLOCKED" "7" "DEBIT" "upd" (-5) 7 rfl
    (by decide) (by decide)

/-- C6: after the successful sequence CreateAsset → UpdateAsset →
DeleteAsset on a key with no other writes to it, GetAssetHistory of
that key returns exactly three entries in commit order: the post-create
and post-update snapshots, each with its commit transaction id and
second-granularity timestamp and the deletion flag unset, then a third
entry with the deletion flag set and no snapshot. -/
theorem getAssetHistory_create_update_delete
    (ctx1 ctx2 ctx3 : TxCtx) (l : Ledger) (k : String)
    (d1 p1 b1 s1 t1 ty1 r1 d2 p2 b2 s2 t2 ty2 r2 : String)
    (bal1 tamt1 bal2 tamt2 : Int)
    (h0 : getState l k = none)
    (hlog : l.log.filter (fun rec => rec.key = k) = [])
    (hb1 : parseInt64 b1 = some bal1) (ht1 : parseInt64 t1 = some tamt1)
    (hb2 : parseInt64 b2 = some bal2) (ht2 : parseInt64 t2 = some tamt2) :
    ∃ l1 l2 l3,
      createAsset ctx1 l d1 k p1 b1 s1 t1 ty1 r1 = .ok l1 ∧
      updateAsset ctx2 l1 d2 k p2 b2 s2 t2 ty2 r2 = .ok l2 ∧
      deleteAsset ctx3 l2 k = .ok l3 ∧
      getAssetHistory l3 k = .ok
        [⟨ctx1.txId, some ⟨d1, k, p1, bal1, s1, tamt1, ty1, r1⟩, false, ctx1.tsSeconds⟩,
         ⟨ctx2.txId, some ⟨d2, k, p2, bal2, s2, tamt2, ty2, r2⟩, false, ctx2.tsSeconds⟩,
         ⟨ctx3.txId, none, true, ctx3.tsSeconds⟩] := by
  have he0 : existsKey l k = false := (existsKey_false_iff l k).mpr h0
  refine ⟨putState ctx1 l k (.acct ⟨d1, k, p1, bal1, s1, tamt1, ty1, r1⟩),
    putState ctx2 (putState ctx1 l k (.acct ⟨d1, k, p1, bal1, s1, tamt1, ty1, r1⟩))
      k (.acct ⟨d2, k, p2, bal2, s2, tamt2, ty2, r2⟩),
    delState ctx3 (putState ctx2 (putState ctx1 l k
      (.acct ⟨d1, k, p1, bal1, s1, tamt1, ty1, r1⟩))
      k (.acct ⟨d2, k, p2, bal2, s2, tamt2, ty2, r2⟩)) k,
    ?_, ?_, ?_, ?_⟩
  · simp [createAsset, he0, hb1, ht1]
  · have he1 : existsKey (putState ctx1 l k
        (.acct ⟨d1, k, p1, bal1, s1, tamt1, ty1, r1⟩)) k = true := by
      rw [existsKey_true_iff]
      exact ⟨_, getState_putState_self _ _ _ _⟩
    simp [updateAsset, he1, hb2, ht2]
  · have he2 : existsKey (putState ctx2 (putState ctx1 l k
        (.acct ⟨d1, k, p1, bal1, s1, tamt1, ty1, r1⟩))
        k (.acct ⟨d2, k, p2, bal2, s2, tamt2, ty2, r2⟩)) k = true := by
      rw [existsKey_true_iff]
      exact ⟨_, getState_putState_self _ _ _ _⟩
    simp [deleteAsset, he2]
  · simp [getAssetHistory, putState, delState, List.filter_append, hlog,
      histList, histEntry, unmarshalAccount]

/-- Witness for C6: create, update, delete of the key 77 on the empty
ledger yields the three expected history entries. -/
theorem getAssetHistory_create_update_delete_witness :
    ∃ l1 l2 l3,
      createAsset ⟨"t1", 3⟩ emptyLedger "D1" "77" "1234" "1000" "ACTIVE" "0"
        "NA" "init" = .ok l1 ∧
      updateAsset ⟨"t2", 4⟩ l1 "D2" "77" "5678" "900" "ACTIVE" "-100" "DEBIT"
        "upd" = .ok l2 ∧
      deleteAsset ⟨"t3", 5⟩ l2 "77" = .ok l3 ∧
      getAssetHistory l3 "77" = .ok
        [⟨"t1", some ⟨"D1", "77", "1234", 1000, "ACTIVE", 0, "NA", "init"⟩, false, 3⟩,
         ⟨"t2", some ⟨"D2", "77", "5678", 900, "ACTIVE", -100, "DEBIT", "upd"⟩, false, 4⟩,
         ⟨"t3", none, true, 5⟩] :=
  getAssetHistory_create_update_delete ⟨"t1", 3⟩ ⟨"t2", 4⟩ ⟨"t3", 5⟩ emptyLedger
    "77" "D1" "1234" "1000" "ACTIVE" "0" "NA" "init" "D2" "5678" "900" "ACTIVE"
    "-100" "DEBIT" "upd" 1000 0 900 (-100) rfl rfl (by decide) (by decide)
    (by decide) (by decide)

/-- C7: every operation reads and writes only the key given by its
subscriberID argument. Records stored under any other key are unchanged
by CreateAsset, UpdateAsset and DeleteAsset whether they succeed or
fail; UpdateAsset never adds or removes a record under any key,
CreateAsset never removes one, and DeleteAsset never adds one. The
read-only operations ReadAsset, GetAllAssets and GetAssetHistory are
functions of the ledger alone and return no new ledger state in this
embedding, so they change no state at all. -/
theorem contract_frame_single_key
    (ctx : TxCtx) (l : Ledger)
    (dealerID msisdn mpin balance status transAmount transType remarks : String)
    (k1 : String) :
    (k1 ≠ msisdn →
      getState (stateAfter l (createAsset ctx l dealerID msisdn mpin balance
        status transAmount transType remarks)) k1 = getState l k1) ∧
    (k1 ≠ msisdn →
      getState (stateAfter l (updateAsset ctx l dealerID msisdn mpin balance
        status transAmount transType remarks)) k1 = getState l k1) ∧
    (k1 ≠ msisdn →
      getState (stateAfter l (deleteAsset ctx l msisdn)) k1 = getState l k1) ∧
    ((getState (stateAfter l (updateAsset ctx l dealerID msisdn mpin balance
        status transAmount transType remarks)) k1).isSome
      = (getState l k1).isSome) ∧
    ((getState l k1).isSome = true →
      (getState (stateAfter l (createAsset ctx l dealerID msisdn mpin balance
        status transAmount transType remarks)) k1).isSome = true) ∧
    ((getState (stateAfter l (deleteAsset ctx l msisdn)) k1).isSome = true →
      (getState l k1).isSome = true) := by
  refine ⟨?_, ?_, ?_, ?_, ?_, ?_⟩
  · intro hk
    cases hc : createAsset ctx l dealerID msisdn mpin balance status transAmount
        transType remarks with
    | error e => simp [stateAfter]
    | ok l1 =>
      obtain ⟨h0, bal, tamt, hb, ht, hl1⟩ := createAsset_ok_inv ctx l l1 dealerID
        msisdn mpin balance status transAmount transType remarks hc
      subst hl1
      simp only [stateAfter]
      exact getState_putState_ne ctx l msisdn _ k1 hk
  · intro hk
    cases hc : updateAsset ctx l dealerID msisdn mpin balance status transAmount
        transType remarks with
    | error e => simp [stateAfter]
    | ok l1 =>
      obtain ⟨hex, bal, tamt, hb, ht, hl1⟩ := updateAsset_ok_inv ctx l l1 dealerID
        msisdn mpin balance status transAmount transType remarks hc
      subst hl1
      simp only [stateAfter]
      exact getState_putState_ne ctx l msisdn _ k1 hk
  · intro hk
    cases hc : deleteAsset ctx l msisdn with
    | error e => simp [stateAfter]
    | ok l1 =>
      obtain ⟨hex, hl1⟩ := deleteAsset_ok_inv ctx l l1 msisdn hc
      subst hl1
      simp only [stateAfter]
      exact getState_delState_ne ctx l msisdn k1 hk
  · cases hc : updateAsset ctx l dealerID msisdn mpin balance status transAmount
        transType remarks with
    | error e => simp [stateAfter]
    | ok l1 =>
      obtain ⟨hex, bal, tamt, hb, ht, hl1⟩ := updateAsset_ok_inv ctx l l1 dealerID
        msisdn mpin balance status transAmount transType remarks hc
      subst hl1
      simp only [stateAfter]
      by_cases hk : k1 = msisdn
      · subst hk
        rw [getState_putState_self]
        rw [existsKey] at hex
        simp only [Option.isSome_some]
        exact hex.symm
      · rw [getState_putState_ne ctx l msisdn _ k1 hk]
  · intro hs
    cases hc : createAsset ctx l dealerID msisdn mpin balance status transAmount
        transType remarks with
    | error e => simpa [stateAfter] using hs
    | ok l1 =>
      obtain ⟨h0, bal, tamt, hb, ht, hl1⟩ := createAsset_ok_inv ctx l l1 dealerID
        msisdn mpin balance status transAmount transType remarks hc
      subst hl1
      simp only [stateAfter]
      by_cases hk : k1 = msisdn
      · subst hk
        rw [getState_putState_self]
        simp
      · rw [getState_putState_ne ctx l msisdn _ k1 hk]
        exact hs
  · cases hc : deleteAsset ctx l msisdn with
    | error e =>
      intro hs
      simpa [stateAfter] using hs
    | ok l1 =>
      obtain ⟨hex, hl1⟩ := deleteAsset_ok_inv ctx l l1 msisdn hc
      subst hl1
      intro hs
      simp only [stateAfter] at hs
      by_cases hk : k1 = msisdn
      · subst hk
        rw [getState_delState_self] at hs
        cases hs
      · rw [getState_delState_ne ctx l msisdn k1 hk] at hs
        exact hs

/-- Witness for C7 on sampleLedger, key "222" versus the live key. -/
theorem contract_frame_single_key_witness :
    getState (stateAfter sampleLedger (createAsset ⟨"t2", 4⟩ sampleLedger "D1"
      "222" "1" "1" "A" "1" "NA" "x")) "9990001111"
      = getState sampleLedger "9990001111" ∧
    getState (stateAfter sampleLedger (updateAsset ⟨"t2", 4⟩ sampleLedger "D1"
      "222" "1" "1" "A" "1" "NA" "x")) "9990001111"
      = getState sampleLedger "9990001111" ∧
    getState (stateAfter sampleLedger (deleteAsset ⟨"t2", 4⟩ sampleLedger "222"))
      "9990001111" = getState sampleLedger "9990001111" ∧
    (getState (stateAfter sampleLedger (createAsset ⟨"t2", 4⟩ sampleLedger "D1"
      "222" "1" "1" "A" "1" "NA" "x")) "9990001111").isSome = true :=
  have h := contract_frame_single_key ⟨"t2", 4⟩ sampleLedger "D1" "222" "1" "1"
    "A" "1" "NA" "x" "9990001111"
  ⟨h.1 (by decide), h.2.1 (by decide), h.2.2.1 (by decide),
    h.2.2.2.2.1 (by decide)⟩

theorem decodeAll_map_acct : ∀ ws : List (String × Account),
    decodeAll (ws.map (fun p => (p.1, Bytes.acct p.2))) = .ok (ws.map (fun p => p.2))
  | [] => rfl
  | p :: rest => by
    simp only [List.map_cons, decodeAll, unmarshalAccount,
      decodeAll_map_acct rest]

/-- C8: queries over absent data return empty sequences rather than
errors: GetAllAssets on a ledger with no live records returns the empty
list and never fails, and GetAssetHistory of a key that was never
written returns the empty list; when live records exist, GetAllAssets
returns every one of them in the iteration order of the world state,
and the three mutating operations keep the world state strictly sorted
by key, so that order is lexicographic over subscriber identifiers. -/
theorem queries_absent_empty_and_sorted
    (lg : List KeyMod) (l : Ledger) (k : String) (ws : List (String × Account))
    (ctx : TxCtx)
    (dealerID msisdn mpin balance status transAmount transType remarks : String) :
    (getAllAssets ⟨[], lg⟩ = .ok []) ∧
    (l.log.filter (fun rec => rec.key = k) = [] → getAssetHistory l k = .ok []) ∧
    (l.world = ws.map (fun p => (p.1, Bytes.acct p.2)) →
      getAllAssets l = .ok (ws.map (fun p => p.2))) ∧
    (SortedWorld l.world →
      SortedWorld (stateAfter l (createAsset ctx l dealerID msisdn mpin balance
        status transAmount transType remarks)).world) ∧
    (SortedWorld l.world →
      SortedWorld (stateAfter l (updateAsset ctx l dealerID msisdn mpin balance
        status transAmount transType remarks)).world) ∧
    (SortedWorld l.world →
      SortedWorld (stateAfter l (deleteAsset ctx l msisdn)).world) := by
  refine ⟨rfl, ?_, ?_, ?_, ?_, ?_⟩
  · intro hlog
    simp [getAssetHistory, hlog, histList]
  · intro hw
    rw [getAllAssets, hw]
    exact decodeAll_map_acct ws
  · intro hs
    cases hc : createAsset ctx l dealerID msisdn mpin balance status transAmount
        transType remarks with
    | error e => simpa [stateAfter] using hs
    | ok l1 =>
      obtain ⟨h0, bal, tamt, hb, ht, hl1⟩ := createAsset_ok_inv ctx l l1 dealerID
        msisdn mpin balance status transAmount transType remarks hc
      subst hl1
      simp only [stateAfter, putState]
      exact sorted_insertKV l.world msisdn _ hs
  · intro hs
    cases hc : updateAsset ctx l dealerID msisdn mpin balance status transAmount
        transType remarks with
    | error e => simpa [stateAfter] using hs
    | ok l1 =>
      obtain ⟨hex, bal, tamt, hb, ht, hl1⟩ := updateAsset_ok_inv ctx l l1 dealerID
        msisdn mpin balance status transAmount transType remarks hc
      subst hl1
      simp only [stateAfter, putState]
      exact sorted_insertKV l.world msisdn _ hs
  · intro hs
    cases hc : deleteAsset ctx l msisdn with
    | error e => simpa [stateAfter] using hs
    | ok l1 =>
      obtain ⟨hex, hl1⟩ := deleteAsset_ok_inv ctx l l1 msisdn hc
      subst hl1
      simp only [stateAfter, delState]
      exact sorted_eraseKV l.world msisdn hs

/-- Witness for C8: the empty ledger yields no assets, an unwritten key
yields an empty history on sampleLedger, and the one live record of
sampleLedger is returned. -/
theorem queries_absent_empty_and_sorted_witness :
    getAllAssets emptyLedger = .ok [] ∧
    getAssetHistory sampleLedger "222" = .ok [] ∧
    getAllAssets sampleLedger = .ok [sampleAccount] :=
  have h := queries_absent_empty_and_sorted [] sampleLedger "222"
    [("9990001111", sampleAccount)] ⟨"t", 0⟩ "" "" "" "" "" "" "" ""
  ⟨h.1, h.2.1 (by decide), h.2.2.1 rfl⟩

theorem keyMatch_of_reachable (l : Ledger) (hr : Reachable l) : KeyMatch l := by
  induction hr with
  | empty =>
    intro k b hb
    simp [getState, emptyLedger, lookupKV] at hb
  | create ctx l0 l1 dealerID msisdn mpin balance status transAmount transType remarks hr0 heq ih =>
    obtain ⟨h0, bal, tamt, hb, ht, hl1⟩ := createAsset_ok_inv ctx l0 l1 dealerID
      msisdn mpin balance status transAmount transType remarks heq
    subst hl1
    intro k b hbb
    by_cases hk : k = msisdn
    · subst hk
      rw [getState_putState_self] at hbb
      cases hbb
      exact ⟨_, rfl, rfl⟩
    · rw [getState_putState_ne ctx l0 msisdn _ k hk] at hbb
      exact ih k b hbb
  | update ctx l0 l1 dealerID msisdn mpin balance status transAmount transType remarks hr0 heq ih =>
    obtain ⟨hex, bal, tamt, hb, ht, hl1⟩ := updateAsset_ok_inv ctx l0 l1 dealerID
      msisdn mpin balance status transAmount transType remarks heq
    subst hl1
    intro k b hbb
    by_cases hk : k = msisdn
    · subst hk
      rw [getState_putState_self] at hbb
      cases hbb
      exact ⟨_, rfl, rfl⟩
    · rw [getState_putState_ne ctx l0 msisdn _ k hk] at hbb
      exact ih k b hbb
  | delete ctx l0 l1 msisdn hr0 heq ih =>
    obtain ⟨hex, hl1⟩ := deleteAsset_ok_inv ctx l0 l1 msisdn heq
    subst hl1
    intro k b hbb
    by_cases hk : k = msisdn
    · subst hk
      rw [getState_delState_self] at hbb
      cases hbb
    · rw [getState_delState_ne ctx l0 msisdn k hk] at hbb
      exact ih k b hbb

/-- C9: every record the contract writes is stored under a key equal to
its own MSISDN field, so in every ledger state reachable through
contract operations alone, ReadAsset of a key either fails or returns a
record whose MSISDN equals that key. -/
theorem reachable_msisdn_eq_key (l : Ledger) (hr : Reachable l)
    (k : String) (a : Account) (h : readAsset l k = .ok a) : a.MSISDN = k := by
  have hkm := keyMatch_of_reachable l hr
  unfold readAsset at h
  cases hg : getState l k with
  | none => rw [hg] at h; cases h
  | some b =>
    rw [hg] at h
    obtain ⟨a2, hb2, hm⟩ := hkm k b hg
    subst hb2
    simp only [unmarshalAccount] at h
    cases h
    exact hm

/-- Witness for C9: sampleLedger is reachable by one CreateAsset, and
reading its key returns a record whose MSISDN is that key. -/
theorem reachable_msisdn_eq_key_witness : sampleAccount.MSISDN = "9990001111" :=
  reachable_msisdn_eq_key sampleLedger
    (Reachable.create ⟨"t1", 3⟩ emptyLedger sampleLedger "D1" "9990001111"
      "1234" "1000" "ACTIVE" "0" "NA" "init" Reachable.empty rfl)
    "9990001111" sampleAccount rfl

/-- C10: a history entry carries a snapshot only when the change-log
record has a non-nil value and is not a deletion: a non-deletion record
with a nil value yields an entry with no snapshot and the deletion flag
false rather than a decode failure, and a deletion record's value is
never decoded, even when it is non-empty or undecodable. -/
theorem getAssetHistory_nil_value_and_delete (rec : KeyMod)
    (w : List (String × Bytes)) :
    (rec.isDelete = false → rec.value = none →
      histEntry rec = .ok ⟨rec.txId, none, false, rec.tsSeconds⟩) ∧
    (rec.isDelete = true →
      histEntry rec = .ok ⟨rec.txId, none, true, rec.tsSeconds⟩) ∧
    (rec.isDelete = false → rec.value = none →
      getAssetHistory ⟨w, [rec]⟩ rec.key
        = .ok [⟨rec.txId, none, false, rec.tsSeconds⟩]) ∧
    (rec.isDelete = true →
      getAssetHistory ⟨w, [rec]⟩ rec.key
        = .ok [⟨rec.txId, none, true, rec.tsSeconds⟩]) := by
  obtain ⟨tx, key, val, del, ts⟩ := rec
  refine ⟨?_, ?_, ?_, ?_⟩
  · intro hdel hval
    subst hdel
    subst hval
    rfl
  · intro hdel
    subst hdel
    cases val <;> rfl
  · intro hdel hval
    subst hdel
    subst hval
    simp [getAssetHistory, histList, histEntry]
  · intro hdel
    subst hdel
    cases val <;> simp [getAssetHistory, histList, histEntry]

/-- Witness for C10: a deletion record carrying undecodable bytes still
yields a flagged entry with no snapshot, and a nil-value non-deletion
record yields an unflagged entry with no snapshot. -/
theorem getAssetHistory_nil_value_and_delete_witness :
    histEntry ⟨"tx9", "k9", some (.garbage 7), true, 11⟩
      = .ok ⟨"tx9", none, true, 11⟩ ∧
    getAssetHistory ⟨[], [⟨"tx9", "k9", some (.garbage 7), true, 11⟩]⟩ "k9"
      = .ok [⟨"tx9", none, true, 11⟩] ∧
    histEntry ⟨"tx8", "k8", none, false, 12⟩ = .ok ⟨"tx8", none, false, 12⟩ :=
  have h1 := getAssetHistory_nil_value_and_delete
    ⟨"tx9", "k9", some (.garbage 7), true, 11⟩ []
  have h2 := getAssetHistory_nil_value_and_delete
    ⟨"tx8", "k8", none, false, 12⟩ []
  ⟨h1.2.1 rfl, h1.2.2.2 rfl, h2.1 rfl rfl⟩
